import Mathlib

set_option linter.dupNamespace false

/-!
Verification of the automation-variable resource lifecycle, embedding
`resource_arm_automation_datetime_variable.go` and
`resource_arm_automation_int_variable_test.go`.
-/

namespace AutomationVariable

/-- Character of a single decimal digit, mirroring Go integer formatting. -/
def digitChar (n : Nat) : Char := Char.ofNat (48 + n)

/-- Numeric value of a decimal digit character, if it is one. -/
def digitVal (c : Char) : Option Nat :=
  if 48 ≤ c.toNat ∧ c.toNat ≤ 57 then some (c.toNat - 48) else none

/-- Accumulating decimal parse over a character list; fails on a non-digit. -/
def parseDigitsFrom : Nat → List Char → Option Nat
  | acc, [] => some acc
  | acc, c :: cs =>
    match digitVal c with
    | some d => parseDigitsFrom (acc * 10 + d) cs
    | none => none

/-- Decimal parse requiring at least one digit. -/
def parseDigitsPos : List Char → Option Nat
  | [] => none
  | c :: cs => parseDigitsFrom 0 (c :: cs)

/-- Fueled digit emitter: digits of `n` in order, prepended to `acc`. -/
def natToDigitsAux : Nat → Nat → List Char → List Char
  | 0, _, acc => acc
  | f + 1, n, acc =>
    if n < 10 then digitChar n :: acc
    else natToDigitsAux f (n / 10) (digitChar (n % 10) :: acc)

/-- Decimal digits of a natural number below 10^20. -/
def natToDecimalChars (n : Nat) : List Char := natToDigitsAux 20 n []

/-- Decimal rendering of an integer, mirroring Go `%d` formatting. -/
def intToDecimalChars (i : Int) : List Char :=
  if i < 0 then '-' :: natToDecimalChars (-i).toNat else natToDecimalChars i.toNat

/-- Parse an optionally minus-signed decimal integer from a character list. -/
def parseIntChars (l : List Char) : Option Int :=
  match l with
  | [] => none
  | c :: rest =>
    if c = '-' then (parseDigitsPos rest).map (fun n => -(n : Int))
    else (parseDigitsPos (c :: rest)).map (fun n => (n : Int))

/-- Remove an expected leading pattern from a character list. -/
def chopLead : List Char → List Char → Option (List Char)
  | [], l => some l
  | _ :: _, [] => none
  | p :: ps, c :: cs => if c = p then chopLead ps cs else none

/-- One expected literal character of a layout. -/
def expectCh (c : Char) : List Char → Option (List Char)
  | [] => none
  | x :: xs => if x = c then some xs else none

/-- Exactly two decimal digits, as in the zero-padded Go layout fields. -/
def take2 : List Char → Option (Nat × List Char)
  | a :: b :: rest =>
    (match digitVal a, digitVal b with
     | some x, some y => some (x * 10 + y, rest)
     | _, _ => none)
  | _ => none

/-- Exactly four decimal digits, as in the Go layout year field. -/
def take4 : List Char → Option (Nat × List Char)
  | a :: b :: c :: d :: rest =>
    (match digitVal a, digitVal b, digitVal c, digitVal d with
     | some x, some y, some z, some w => some (((x * 10 + y) * 10 + z) * 10 + w, rest)
     | _, _, _, _ => none)
  | _ => none

/-- Maximal run of decimal digits at the head of a character list. -/
def digitSpan : List Char → List Char × List Char
  | [] => ([], [])
  | c :: cs =>
    (match digitVal c with
     | some _ => ((c :: (digitSpan cs).1), (digitSpan cs).2)
     | none => ([], c :: cs))

/-- Zone suffix of the RFC-3339 layout: either literal Z or a signed
hour-minute offset; the result is the offset in seconds east of UTC. -/
def parseZone : List Char → Option (Int × List Char)
  | [] => none
  | c :: rest =>
    if c = 'Z' then some (0, rest)
    else if c = '+' ∨ c = '-' then
      (match take2 rest with
       | none => none
       | some (hh, r2) =>
         match expectCh ':' r2 with
         | none => none
         | some r3 =>
           match take2 r3 with
           | none => none
           | some (mm, r4) =>
             if hh ≤ 23 ∧ mm ≤ 59 then
               some (if c = '-' then -(hh * 3600 + mm * 60 : Int) else (hh * 3600 + mm * 60 : Int), r4)
             else none)
    else none

/-- Leap-year test of the proleptic Gregorian calendar, as in Go time. -/
def isLeapYear (y : Nat) : Bool := (y % 4 == 0 && y % 100 != 0) || y % 400 == 0

/-- Days of a month, with the leap-February rule, as validated by Go time.Parse. -/
def daysInMonth (y m : Nat) : Nat :=
  if m = 2 then (if isLeapYear y then 29 else 28)
  else if m = 4 ∨ m = 6 ∨ m = 9 ∨ m = 11 then 30
  else 31

/-- Broken-down result of parsing an RFC-3339 timestamp. -/
structure Rfc3339Parts where
  year : Nat
  month : Nat
  day : Nat
  hour : Nat
  minute : Nat
  second : Nat
  nanos : Nat
  offsetSec : Int
deriving DecidableEq

/-- Optional fractional-second field after the seconds, as Go time.Parse
accepts it: a point and one to nine digits, scaled to nanoseconds. -/
def parseFracNanos (l : List Char) : Option (Nat × List Char) :=
  match l with
  | '.' :: rest =>
    (match digitSpan rest with
     | (run, rest2) =>
       if run.length = 0 ∨ 9 < run.length then none
       else
         match parseDigitsFrom 0 run with
         | none => none
         | some v => some (v * 10 ^ (9 - run.length), rest2))
  | other => some (0, other)

/-- Embedding of Go `time.Parse(time.RFC3339, s)` as called at line 85 of the
datetime resource: date, literal T, clock time, optional fractional seconds
of at most nine digits, and a Z or signed hour-minute zone; all component
ranges are validated and the whole input must be consumed. -/
def goParseRFC3339 (s : String) : Option Rfc3339Parts :=
  match take4 s.data with
  | none => none
  | some (y, r1) =>
    match expectCh '-' r1 with
    | none => none
    | some r2 =>
      match take2 r2 with
      | none => none
      | some (mo, r3) =>
        match expectCh '-' r3 with
        | none => none
        | some r4 =>
          match take2 r4 with
          | none => none
          | some (d, r5) =>
            match expectCh 'T' r5 with
            | none => none
            | some r6 =>
              match take2 r6 with
              | none => none
              | some (h, r7) =>
                match expectCh ':' r7 with
                | none => none
                | some r8 =>
                  match take2 r8 with
                  | none => none
                  | some (mi, r9) =>
                    match expectCh ':' r9 with
                    | none => none
                    | some r10 =>
                      match take2 r10 with
                      | none => none
                      | some (sec, r11) =>
                        match parseFracNanos r11 with
                        | none => none
                        | some (ns, r12) =>
                          match parseZone r12 with
                          | none => none
                          | some (off, r13) =>
                            if r13 = [] ∧ 1 ≤ mo ∧ mo ≤ 12 ∧ 1 ≤ d ∧
                                d ≤ daysInMonth y mo ∧ h ≤ 23 ∧ mi ≤ 59 ∧ sec ≤ 59 then
                              some (Rfc3339Parts.mk y mo d h mi sec ns off)
                            else none

/-- Days between a proleptic Gregorian civil date and 1970-01-01. -/
def daysFromCivil (y m d : Int) : Int :=
  let yy := if m ≤ 2 then y - 1 else y
  let era := Int.ediv yy 400
  let yoe := yy - era * 400
  let mp := Int.emod (m + 9) 12
  let doy := Int.ediv (153 * mp + 2) 5 + d - 1
  let doe := yoe * 365 + Int.ediv yoe 4 - Int.ediv yoe 100 + doy
  era * 146097 + doe - 719468

/-- Unix epoch nanoseconds denoted by parsed RFC-3339 components, as an
unbounded integer. -/
def epochNanoOfParts (p : Rfc3339Parts) : Int :=
  let days := daysFromCivil (p.year : Int) (p.month : Int) (p.day : Int)
  let sec := days * 86400 + ((p.hour : Int) * 3600 + (p.minute : Int) * 60 + (p.second : Int)) - p.offsetSec
  sec * 1000000000 + (p.nanos : Int)

/-- Two's-complement wrap of an integer into the signed 64-bit range. -/
def wrap64 (x : Int) : Int := (x + 2 ^ 63) % 2 ^ 64 - 2 ^ 63

/-- Go `t.UnixNano()`: the epoch nanoseconds of the parsed time, wrapped into
int64 (Go signed arithmetic wraps; the result is garbage outside 1678-2262). -/
def unixNanoInt64 (p : Rfc3339Parts) : Int := wrap64 (epochNanoOfParts p)

/-- Civil date of a day count relative to 1970-01-01 (inverse of
`daysFromCivil`). -/
def civilFromDays (z : Int) : Int × Int × Int :=
  let zz := z + 719468
  let era := Int.ediv zz 146097
  let doe := Int.emod zz 146097
  let yoe := Int.ediv (doe - Int.ediv doe 1460 + Int.ediv doe 36524 - Int.ediv doe 146096) 365
  let y := yoe + era * 400
  let doy := doe - (365 * yoe + Int.ediv yoe 4 - Int.ediv yoe 100)
  let mp := Int.ediv (5 * doy + 2) 153
  let d := doy - Int.ediv (153 * mp + 2) 5 + 1
  let m := mp + (if mp < 10 then 3 else -9)
  (if m ≤ 2 then y + 1 else y, m, d)

/-- Zero-padded decimal rendering of a natural number to a given width. -/
def padNat (w n : Nat) : List Char :=
  List.replicate (w - (natToDecimalChars n).length) '0' ++ natToDecimalChars n

/-- Year field rendering for the Go layout 2006. -/
def yearChars (y : Int) : List Char :=
  if y < 0 then '-' :: padNat 4 (-y).toNat else padNat 4 y.toNat

/-- Embedding of line 149 of the read function: render the reconstructed UTC
time with Go layout 2006-01-02T15:04:05.999Z; the .999 fragment prints at
most three fractional digits and removes trailing zeros, dropping the point
entirely when the millisecond fraction is zero, and Z is a literal suffix. -/
def goFormatMilli999Z (ms : Int) : String :=
  let n := ms * 1000000
  let sec := Int.ediv n 1000000000
  let nsec := (Int.emod n 1000000000).toNat
  let days := Int.ediv sec 86400
  let rem := (Int.emod sec 86400).toNat
  let c := civilFromDays days
  let millis := nsec / 1000000
  let frac : List Char :=
    if millis = 0 then []
    else if millis % 10 ≠ 0 then '.' :: padNat 3 millis
    else if millis % 100 ≠ 0 then '.' :: padNat 2 (millis / 10)
    else '.' :: padNat 1 (millis / 100)
  String.mk (yearChars c.1 ++ '-' :: padNat 2 c.2.1.toNat ++ '-' :: padNat 2 c.2.2.toNat ++
    'T' :: padNat 2 (rem / 3600) ++ ':' :: padNat 2 (rem % 3600 / 60) ++
    ':' :: padNat 2 (rem % 60) ++ frac ++ ['Z'])

/-- Opening characters of the encoded date token. -/
def dateTokenOpen : List Char := "\"\\/Date(".data

/-- Closing characters of the encoded date token. -/
def dateTokenClose : List Char := ")\\/\"".data

/-- Embedding of line 89 of the create function:
fmt.Sprintf with the legacy date wrapper around the decimal milliseconds. -/
def goSprintfDateToken (ms : Int) : String :=
  String.mk (dateTokenOpen ++ intToDecimalChars ms ++ dateTokenClose)

/-- Encoded value written by the create path (lines 85-89): the parsed time's
UnixNano, divided by 10^6 in int64 arithmetic, inside the wrapper token. -/
def datetimeEncodeValue (p : Rfc3339Parts) : String :=
  goSprintfDateToken (Int.tdiv (unixNanoInt64 p) 1000000)

/-- Modelled from the spec: ParseAzureRmAutomationVariableValue (an azurerm
helper that is not under src/) extracts the millisecond integer from the
wrapper token, requiring the whole value to match the wrapper shape with an
optionally signed decimal integer inside; the reconstructed timestamp is the
returned epoch-millisecond count, and a missing value or a shape mismatch is
a decode failure. -/
def parseAzureRmAutomationVariableValue (v : Option String) : Option Int :=
  match v with
  | none => none
  | some s =>
    match chopLead dateTokenOpen s.data with
    | none => none
    | some rest =>
      match chopLead dateTokenClose.reverse rest.reverse with
      | none => none
      | some midRev => parseIntChars midRev.reverse

/-- Modelled from the spec: the Int codec encodes an integer as its decimal
string, verbatim. -/
def intVariableEncode (i : Int) : String := String.mk (intToDecimalChars i)

/-- Modelled from the spec: the Int codec decodes by parsing a decimal
string, failing on non-numeric content. -/
def intVariableDecode (s : String) : Option Int := parseIntChars s.data

/-- Modelled from the spec: the Bool codec encodes as the literal
true or false. -/
def boolVariableEncode (b : Bool) : String := if b then "true" else "false"

/-- Modelled from the spec: the Bool codec decodes by exact string match. -/
def boolVariableDecode (s : String) : Option Bool :=
  if s = "true" then some true else if s = "false" then some false else none

/-- Lower-case hexadecimal digit character. -/
def hexDigitChar (n : Nat) : Char := if n < 10 then digitChar n else Char.ofNat (87 + n)

/-- Value of a hexadecimal digit character, if it is one. -/
def hexVal (c : Char) : Option Nat :=
  if 48 ≤ c.toNat ∧ c.toNat ≤ 57 then some (c.toNat - 48)
  else if 97 ≤ c.toNat ∧ c.toNat ≤ 102 then some (c.toNat - 87)
  else if 65 ≤ c.toNat ∧ c.toNat ≤ 70 then some (c.toNat - 55)
  else none

/-- JSON escape of one character: quote, backslash and control characters are
escaped per JSON string rules, everything else passes through. -/
def jsonEscapeChar (c : Char) : List Char :=
  if c = '"' then ['\\', '"']
  else if c = '\\' then ['\\', '\\']
  else if c = '\n' then ['\\', 'n']
  else if c = '\r' then ['\\', 'r']
  else if c = '\t' then ['\\', 't']
  else if c.toNat < 32 then ['\\', 'u', '0', '0', hexDigitChar (c.toNat / 16), hexDigitChar (c.toNat % 16)]
  else [c]

/-- Modelled from the spec: the String codec encodes by JSON-quoting the raw
string, escaping embedded quotes, backslashes and control characters. -/
def jsonQuote (s : String) : String :=
  String.mk ('"' :: (s.data.map jsonEscapeChar).flatten ++ ['"'])

/-- One unescaping step: consumes one escape sequence or one plain character;
raw quotes and raw control characters are rejected. -/
def unescapeStep (l : List Char) : Option (Char × List Char) :=
  match l with
  | [] => none
  | c :: rest =>
    if c = '\\' then
      match rest with
      | [] => none
      | e :: t =>
        if e = '"' then some ('"', t)
        else if e = '\\' then some ('\\', t)
        else if e = 'n' then some ('\n', t)
        else if e = 'r' then some ('\r', t)
        else if e = 't' then some ('\t', t)
        else if e = 'u' then
          (match t with
           | h1 :: h2 :: h3 :: h4 :: t2 =>
             (match hexVal h1, hexVal h2, hexVal h3, hexVal h4 with
              | some a, some b, some x, some y =>
                if (((a * 16 + b) * 16 + x) * 16 + y).isValidChar then
                  some (Char.ofNat (((a * 16 + b) * 16 + x) * 16 + y), t2)
                else none
              | _, _, _, _ => none)
           | _ => none)
        else none
    else if c = '"' then none
    else if c.toNat < 32 then none
    else some (c, rest)

/-- Fueled unescaping loop over the quoted body. -/
def jsonUnescapeAux : Nat → List Char → Option (List Char)
  | _, [] => some []
  | 0, _ :: _ => none
  | f + 1, c :: rest0 =>
    match unescapeStep (c :: rest0) with
    | none => none
    | some (x, rest) => (jsonUnescapeAux f rest).map (fun t => x :: t)

/-- Modelled from the spec: the String codec decodes by JSON-unquoting,
failing when the value is not validly JSON-quoted. -/
def jsonUnquote (s : String) : Option String :=
  match chopLead ['"'] s.data with
  | none => none
  | some rest =>
    match chopLead ['"'] rest.reverse with
    | none => none
    | some innerRev => (jsonUnescapeAux innerRev.length innerRev.reverse).map String.mk

/-- Wrapped HTTP response carried by SDK results. -/
structure HttpResponse where
  statusCode : Nat
deriving DecidableEq

/-- utils.ResponseWasNotFound: the response reports HTTP 404. -/
def responseWasNotFound (r : HttpResponse) : Bool := r.statusCode == 404

/-- automation.VariableProperties: pointer fields of the SDK record. -/
structure VariableProperties where
  description : Option String
  isEncrypted : Option Bool
  value : Option String
deriving DecidableEq

/-- automation.Variable as returned by the client's Get. -/
structure AutomationVariable where
  response : HttpResponse
  id : Option String
  name : Option String
  properties : Option VariableProperties
deriving DecidableEq

/-- Result of one Get call of the abstract client: the SDK record and the
error value (none models a nil Go error). -/
structure GetResult where
  resp : AutomationVariable
  err : Option String
deriving DecidableEq

/-- Behaviour of the abstract client across the calls one createOrUpdate
invocation can make: the import-guard probe Get, the CreateOrUpdate error,
the identifier re-Get and the Get performed by the trailing read. -/
structure ClientBehavior where
  probeGet : GetResult
  createErr : Option String
  afterGet : GetResult
  readGet : GetResult
deriving DecidableEq

/-- Result of one Delete call of the abstract client. -/
structure DeleteResult where
  resp : HttpResponse
  err : Option String
deriving DecidableEq

/-- The schema.ResourceData fields of the datetime variable resource; unset
schema fields read as Go zero values. -/
structure ResourceData where
  id : String
  name : String
  resourceGroupName : String
  automationAccountName : String
  description : String
  encrypted : Bool
  value : String
deriving DecidableEq

/-- Errors returned by the embedded operations, one constructor per return
fmt.Errorf site (plus the identifier-parse failure). -/
inductive OpError
  | parseIdFailed
  | checkingExisting (msg : String)
  | importAsExists (resourceType id : String)
  | invalidTimeFormat
  | createFailed (msg : String)
  | retrieveFailed (msg : String)
  | cannotReadId
  | readFailed (msg : String)
  | valueDecodeFailed
  | deleteFailed (msg : String)
deriving DecidableEq

/-- Outcome of an operation: nil error with the final state, an error with
the state as mutated so far, or a runtime crash (nil-pointer dereference). -/
inductive OpOutcome
  | ok (d : ResourceData)
  | fail (e : OpError) (d : ResourceData)
  | crash
deriving DecidableEq

/-- Remote calls an operation makes, in order; the CreateOrUpdate call
records the encoded value sent to the service. -/
inductive RemoteCall
  | getCall
  | createCall (encodedValue : String)
  | deleteCall
deriving DecidableEq

/-- Whether a remote call is a CreateOrUpdate. -/
def isCreateCall : RemoteCall → Bool
  | RemoteCall.createCall _ => true
  | _ => false

/-- Final resource-data state of an outcome, when one exists. -/
def outcomeState : OpOutcome → Option ResourceData
  | OpOutcome.ok d => some d
  | OpOutcome.fail _ d => some d
  | OpOutcome.crash => none

/-- Identity extracted from a canonical identifier string. -/
structure ParsedResourceId where
  resourceGroup : String
  accountName : String
  name : String
deriving DecidableEq

/-- Split a character list on slashes. -/
def splitSlash : List Char → List (List Char)
  | [] => [[]]
  | c :: cs =>
    if c = '/' then [] :: splitSlash cs
    else
      match splitSlash cs with
      | [] => [[c]]
      | h :: t => (c :: h) :: t

/-- Adjacent key/value pairing of path segments; an odd segment count fails. -/
def pairSegments : List String → Option (List (String × String))
  | [] => some []
  | [_] => none
  | k :: v :: rest => (pairSegments rest).map (fun m => (k, v) :: m)

/-- First value bound to a key among paired segments. -/
def lookupSeg (m : List (String × String)) (k : String) : Option String :=
  (m.find? (fun e => e.1 == k)).map (fun e => e.2)

/-- Modelled from the spec: parseAzureResourceID (an azurerm helper that is
not under src/) parses the slash-segmented hierarchical identifier into
key/value path pairs and extracts the resource-group segment and the
automationAccounts and variables path segments; a missing required segment
is a malformed-identifier failure. -/
def parseAzureResourceID (s : String) : Option ParsedResourceId :=
  match pairSegments (((splitSlash s.data).filter (fun l => !l.isEmpty)).map String.mk) with
  | none => none
  | some m =>
    match lookupSeg m "resourceGroups", lookupSeg m "automationAccounts", lookupSeg m "variables" with
    | some rg, some acct, some nm => some (ParsedResourceId.mk rg acct nm)
    | _, _, _ => none

/-- Embedding of resourceArmAutomationDatetimeVariableRead (lines 116-154):
parse the tracked identifier, Get, treat a not-found error as removal by
clearing the identifier, refresh the schema fields, and decode the value
with the datetime codec only when the refreshed encrypted flag is false. -/
def datetimeVariableRead (g : GetResult) (d : ResourceData) : OpOutcome × List RemoteCall :=
  match parseAzureResourceID d.id with
  | none => (OpOutcome.fail OpError.parseIdFailed d, [])
  | some pid =>
    match g.err with
    | some e =>
      if responseWasNotFound g.resp.response then
        (OpOutcome.ok { d with id := "" }, [RemoteCall.getCall])
      else (OpOutcome.fail (OpError.readFailed e) d, [RemoteCall.getCall])
    | none =>
      let d1 := { d with name := g.resp.name.getD "",
                         resourceGroupName := pid.resourceGroup,
                         automationAccountName := pid.accountName }
      match g.resp.properties with
      | none => (OpOutcome.ok d1, [RemoteCall.getCall])
      | some props =>
        let d2 := { d1 with description := props.description.getD "",
                            encrypted := props.isEncrypted.getD false }
        if d2.encrypted then (OpOutcome.ok d2, [RemoteCall.getCall])
        else
          match parseAzureRmAutomationVariableValue props.value with
          | none => (OpOutcome.fail OpError.valueDecodeFailed d2, [RemoteCall.getCall])
          | some ms =>
            (OpOutcome.ok { d2 with value := goFormatMilli999Z ms }, [RemoteCall.getCall])

/-- Embedding of resourceArmAutomationDatetimeVariableCreateUpdate (lines
63-114): optional import-guard probe, RFC-3339 parse and encode of the
value, CreateOrUpdate, identifier re-Get, SetId, then the trailing read.
The requireImport flag mirrors the requireResourcesToBeImported global. -/
def datetimeVariableCreateUpdate (requireImport : Bool) (cl : ClientBehavior)
    (d : ResourceData) : OpOutcome × List RemoteCall :=
  let guardCalls : List RemoteCall := if requireImport then [RemoteCall.getCall] else []
  let guardExit : Option OpOutcome :=
    if requireImport then
      if responseWasNotFound cl.probeGet.resp.response then none
      else
        match cl.probeGet.err with
        | some e => some (OpOutcome.fail (OpError.checkingExisting e) d)
        | none =>
          match cl.probeGet.resp.id with
          | none => some OpOutcome.crash
          | some i =>
            some (OpOutcome.fail (OpError.importAsExists "azurerm_automation_datetime_variable" i) d)
    else none
  match guardExit with
  | some out => (out, guardCalls)
  | none =>
    match goParseRFC3339 d.value with
    | none => (OpOutcome.fail OpError.invalidTimeFormat d, guardCalls)
    | some p =>
      let calls1 := guardCalls ++ [RemoteCall.createCall (datetimeEncodeValue p)]
      match cl.createErr with
      | some e => (OpOutcome.fail (OpError.createFailed e) d, calls1)
      | none =>
        let calls2 := calls1 ++ [RemoteCall.getCall]
        match cl.afterGet.err with
        | some e => (OpOutcome.fail (OpError.retrieveFailed e) d, calls2)
        | none =>
          match cl.afterGet.resp.id with
          | none => (OpOutcome.fail OpError.cannotReadId d, calls2)
          | some newId =>
            let res := datetimeVariableRead cl.readGet { d with id := newId }
            (res.1, calls2 ++ res.2)

/-- Embedding of resourceArmAutomationDatetimeVariableDelete (lines 156-173):
parse the tracked identifier, call Delete, and surface any client error;
no response inspection happens on the delete path. -/
def datetimeVariableDelete (del : DeleteResult) (d : ResourceData) :
    OpOutcome × List RemoteCall :=
  match parseAzureResourceID d.id with
  | none => (OpOutcome.fail OpError.parseIdFailed d, [])
  | some _ =>
    match del.err with
    | some e => (OpOutcome.fail (OpError.deleteFailed e) d, [RemoteCall.deleteCall])
    | none => (OpOutcome.ok d, [RemoteCall.deleteCall])

/-- One tracked resource of the terraform state, as the destroy check sees
it. -/
structure StateResource where
  rtype : String
  name : String
  resourceGroup : String
  accountName : String
deriving DecidableEq

/-- Whether a tracked resource has the int-variable type. -/
def isIntVariableRes (r : StateResource) : Bool := r.rtype == "azurerm_automation_int_variable"

/-- Embedding of testCheckAzureRMAutomationIntVariableDestroy (test file
lines 127-150): walk the tracked resources, skip other types, Get the first
int variable and fail only on a non-not-found Get error; the loop body ends
in return nil, so iteration stops at the first int variable. The oracle
supplies each resource's Get result; the second component lists the
resources on which Get was actually invoked. -/
def intVariableDestroyCheck (oracle : StateResource → GetResult) :
    List StateResource → Option String × List StateResource
  | [] => (none, [])
  | rs :: rest =>
    if isIntVariableRes rs then
      match (oracle rs).err with
      | some e =>
        if responseWasNotFound (oracle rs).resp.response then (none, [rs])
        else (some e, [rs])
      | none => (none, [rs])
    else intVariableDestroyCheck oracle rest

/-- Error component of an outcome, when the operation failed. -/
def outcomeError : OpOutcome → Option OpError
  | OpOutcome.fail e _ => some e
  | _ => none

/-- Canonical identifier fixture. -/
def idStr0 : String :=
  "/subscriptions/sub1/resourceGroups/rg1/providers/Microsoft.Automation/automationAccounts/acct1/variables/var1"

/-- Identity parsed from the canonical identifier fixture. -/
def pid0 : ParsedResourceId := ParsedResourceId.mk "rg1" "acct1" "var1"

/-- Encoded date token of the concrete scenario. -/
def encTok0 : String := "\"\\/Date(1672671845000)\\/\""

/-- Parts of the scenario timestamp 2023-01-02T15:04:05Z. -/
def p2023 : Rfc3339Parts := Rfc3339Parts.mk 2023 1 2 15 4 5 0 0

/-- Parts of the out-of-int64-range timestamp 2500-01-01T00:00:00Z. -/
def p2500 : Rfc3339Parts := Rfc3339Parts.mk 2500 1 1 0 0 0 0 0

/-- Resource data of the concrete datetime scenario. -/
def d0 : ResourceData :=
  ResourceData.mk idStr0 "var1" "rg1" "acct1" "" false "2023-01-02T15:04:05Z"

/-- Resource data whose value is not a parseable RFC-3339 timestamp. -/
def dBad : ResourceData :=
  ResourceData.mk idStr0 "var1" "rg1" "acct1" "" false "not-a-date"

/-- Remote record of an existing unencrypted variable holding the scenario
token. -/
def respOk0 : AutomationVariable :=
  AutomationVariable.mk (HttpResponse.mk 200) (some idStr0) (some "var1")
    (some (VariableProperties.mk (some "") (some false) (some encTok0)))

/-- Remote record of a found object whose id pointer is nil. -/
def respNoId : AutomationVariable :=
  AutomationVariable.mk (HttpResponse.mk 200) none none none

/-- Client behaviour where every call succeeds against `respOk0`. -/
def clientOk0 : ClientBehavior :=
  ClientBehavior.mk (GetResult.mk respOk0 none) none (GetResult.mk respOk0 none)
    (GetResult.mk respOk0 none)

/-- Client behaviour whose probe finds an object without an id. -/
def clientNoId : ClientBehavior :=
  ClientBehavior.mk (GetResult.mk respNoId none) none (GetResult.mk respOk0 none)
    (GetResult.mk respOk0 none)

/-- Get result of a not-found remote object (404 with an error). -/
def g404 : GetResult :=
  GetResult.mk (AutomationVariable.mk (HttpResponse.mk 404) none none none)
    (some "ResourceNotFound")

/-- Successful Get of an encrypted record carrying an undecodable value. -/
def gEnc : GetResult :=
  GetResult.mk (AutomationVariable.mk (HttpResponse.mk 200) (some idStr0) (some "var1")
    (some (VariableProperties.mk (some "secret description") (some true) (some "garbage"))))
    none

/-- Delete result where the client reports not-found through an error. -/
def delNF : DeleteResult := DeleteResult.mk (HttpResponse.mk 404) (some "ResourceNotFound")

/-- Delete result where the client succeeds. -/
def delOkRes : DeleteResult := DeleteResult.mk (HttpResponse.mk 200) none

/-- Two tracked int-variable resources for the destroy check. -/
def resA : StateResource := StateResource.mk "azurerm_automation_int_variable" "v1" "rg1" "acct1"

/-- Second tracked int-variable resource for the destroy check. -/
def resB : StateResource := StateResource.mk "azurerm_automation_int_variable" "v2" "rg1" "acct1"

/-- Destroy-check oracle under which every variable still exists. -/
def oracleExists : StateResource → GetResult := fun _ => GetResult.mk respOk0 none

theorem digitVal_digitChar (d : Nat) (hd : d < 10) : digitVal (digitChar d) = some d := by
  interval_cases d <;> decide

theorem digitChar_ne_dash (d : Nat) (hd : d < 10) : digitChar d ≠ '-' := by
  interval_cases d <;> decide

theorem natToDigitsAux_head (f : Nat) :
    ∀ (n : Nat) (rest : List Char),
      ∃ d t, d < 10 ∧ natToDigitsAux (f + 1) n rest = digitChar d :: t := by
  induction f with
  | zero =>
    intro n rest
    by_cases h : n < 10
    · exact ⟨n, rest, h, by simp [natToDigitsAux, h]⟩
    · exact ⟨n % 10, rest, Nat.mod_lt _ (by omega), by simp [natToDigitsAux, h]⟩
  | succ f ih =>
    intro n rest
    by_cases h : n < 10
    · exact ⟨n, rest, h, by simp [natToDigitsAux, h]⟩
    · obtain ⟨d, t, hd, he⟩ := ih (n / 10) (digitChar (n % 10) :: rest)
      exact ⟨d, t, hd, by simpa [natToDigitsAux, h] using he⟩

theorem parseDigitsFrom_natToDigitsAux (f : Nat) :
    ∀ (n : Nat) (rest : List Char), n < 10 ^ (f + 1) →
      parseDigitsFrom 0 (natToDigitsAux (f + 1) n rest) = parseDigitsFrom n rest := by
  induction f with
  | zero =>
    intro n rest hn
    have h : n < 10 := by simpa using hn
    simp [natToDigitsAux, h, parseDigitsFrom, digitVal_digitChar n h]
  | succ f ih =>
    intro n rest hn
    by_cases h : n < 10
    · simp [natToDigitsAux, h, parseDigitsFrom, digitVal_digitChar n h]
    · have hdiv : n / 10 < 10 ^ (f + 1) := by
        rw [Nat.div_lt_iff_lt_mul (by norm_num)]
        calc n < 10 ^ (f + 1 + 1) := hn
          _ = 10 ^ (f + 1) * 10 := by ring
      have hstep : natToDigitsAux (f + 1 + 1) n rest
          = natToDigitsAux (f + 1) (n / 10) (digitChar (n % 10) :: rest) := by
        simp [natToDigitsAux, h]
      rw [hstep, ih (n / 10) _ hdiv]
      have h10 : n % 10 < 10 := Nat.mod_lt _ (by omega)
      have : parseDigitsFrom (n / 10) (digitChar (n % 10) :: rest)
          = parseDigitsFrom (n / 10 * 10 + n % 10) rest := by
        simp [parseDigitsFrom, digitVal_digitChar _ h10]
      rw [this]
      congr 1
      omega

theorem parseDigitsPos_natToDecimalChars (n : Nat) (hn : n < 10 ^ 20) :
    parseDigitsPos (natToDecimalChars n) = some n := by
  obtain ⟨d, t, hd, he⟩ := natToDigitsAux_head 19 n []
  have h19 : (20 : Nat) = 19 + 1 := by norm_num
  have hrun := parseDigitsFrom_natToDigitsAux 19 n [] (by simpa [h19] using hn)
  unfold natToDecimalChars
  rw [h19, he]
  rw [he] at hrun
  simpa [parseDigitsPos, parseDigitsFrom] using hrun

theorem natToDecimalChars_head (n : Nat) :
    ∃ d t, d < 10 ∧ natToDecimalChars n = digitChar d :: t := by
  have h19 : (20 : Nat) = 19 + 1 := by norm_num
  unfold natToDecimalChars
  rw [h19]
  exact natToDigitsAux_head 19 n []

theorem parseIntChars_intToDecimalChars (i : Int)
    (h1 : -(10 ^ 20) < i) (h2 : i < 10 ^ 20) :
    parseIntChars (intToDecimalChars i) = some i := by
  by_cases hneg : i < 0
  · have hb : (-i).toNat < 10 ^ 20 := by omega
    obtain ⟨d, t, hd, he⟩ := natToDecimalChars_head (-i).toNat
    unfold intToDecimalChars
    rw [if_pos hneg]
    have hpp : parseDigitsPos (natToDecimalChars (-i).toNat) = some (-i).toNat :=
      parseDigitsPos_natToDecimalChars _ hb
    have hcast : ((-i).toNat : Int) = -i := Int.toNat_of_nonneg (by omega)
    simp only [parseIntChars, if_pos rfl, hpp]
    simp [hcast]
  · have hb : i.toNat < 10 ^ 20 := by omega
    obtain ⟨d, t, hd, he⟩ := natToDecimalChars_head i.toNat
    unfold intToDecimalChars
    rw [if_neg hneg, he]
    have hpp : parseDigitsPos (natToDecimalChars i.toNat) = some i.toNat :=
      parseDigitsPos_natToDecimalChars _ hb
    rw [he] at hpp
    have hcast : (i.toNat : Int) = i := Int.toNat_of_nonneg (by omega)
    simp only [parseIntChars, if_neg (digitChar_ne_dash d hd), hpp]
    simp [hcast]

theorem chopLead_append (p l : List Char) : chopLead p (p ++ l) = some l := by
  induction p with
  | nil => rfl
  | cons c cs ih => simp [chopLead, ih]


theorem wrap64_eq_of_bounds (x : Int) (h1 : -(2 ^ 63) ≤ x) (h2 : x < 2 ^ 63) :
    wrap64 x = x := by
  unfold wrap64
  rw [Int.emod_eq_of_lt (by omega) (by omega)]
  omega

theorem parseValue_goSprintfDateToken (ms : Int)
    (h1 : -(10 ^ 20) < ms) (h2 : ms < 10 ^ 20) :
    parseAzureRmAutomationVariableValue (some (goSprintfDateToken ms)) = some ms := by
  have hdata : (goSprintfDateToken ms).data
      = dateTokenOpen ++ (intToDecimalChars ms ++ dateTokenClose) := by
    simp [goSprintfDateToken]
  have hrev : (intToDecimalChars ms ++ dateTokenClose).reverse
      = dateTokenClose.reverse ++ (intToDecimalChars ms).reverse := by
    simp
  simp only [parseAzureRmAutomationVariableValue, hdata, chopLead_append, hrev,
    List.reverse_reverse]
  exact parseIntChars_intToDecimalChars ms h1 h2

theorem hexVal_hexDigitChar (n : Nat) (h : n < 16) : hexVal (hexDigitChar n) = some n := by
  interval_cases n <;> decide

theorem jsonEscapeChar_ne_nil (c : Char) : jsonEscapeChar c ≠ [] := by
  unfold jsonEscapeChar
  split_ifs <;> simp

theorem unescapeStep_jsonEscapeChar (c : Char) (rest : List Char) :
    unescapeStep (jsonEscapeChar c ++ rest) = some (c, rest) := by
  by_cases h1 : c = '"'
  · subst h1; simp [jsonEscapeChar, unescapeStep]
  · by_cases h2 : c = '\\'
    · subst h2; simp [jsonEscapeChar, unescapeStep]
    · by_cases h3 : c = '\n'
      · subst h3; simp [jsonEscapeChar, unescapeStep]
      · by_cases h4 : c = '\r'
        · subst h4; simp [jsonEscapeChar, unescapeStep]
        · by_cases h5 : c = '\t'
          · subst h5; simp [jsonEscapeChar, unescapeStep]
          · by_cases h6 : c.toNat < 32
            · have u1 : ¬(('u' : Char) = '"') := by decide
              have u2 : ¬(('u' : Char) = '\\') := by decide
              have u3 : ¬(('u' : Char) = 'n') := by decide
              have u4 : ¬(('u' : Char) = 'r') := by decide
              have u5 : ¬(('u' : Char) = 't') := by decide
              have hq : c.toNat / 16 < 16 := by omega
              have hr : c.toNat % 16 < 16 := Nat.mod_lt _ (by omega)
              have hvalEq : (((0 * 16 + 0) * 16 + c.toNat / 16) * 16 + c.toNat % 16) = c.toNat := by
                omega
              have hvalid : Nat.isValidChar c.toNat := Or.inl (by omega)
              simp only [jsonEscapeChar, h1, h2, h3, h4, h5, h6, if_false, if_true,
                ite_true, ite_false, List.cons_append, List.nil_append]
              simp only [unescapeStep, if_pos rfl, if_neg u1, if_neg u2, if_neg u3,
                if_neg u4, if_neg u5, hexVal_hexDigitChar _ hq, hexVal_hexDigitChar _ hr,
                show hexVal '0' = some 0 from by decide]
              rw [hvalEq, if_pos hvalid, Char.ofNat_toNat]
              simp
            · simp [jsonEscapeChar, unescapeStep, h1, h2, h3, h4, h5, h6]

theorem jsonUnescapeAux_nil (f : Nat) : jsonUnescapeAux f [] = some [] := by
  cases f <;> rfl

theorem jsonUnescapeAux_escape (l : List Char) :
    ∀ f, ((l.map jsonEscapeChar).flatten).length ≤ f →
      jsonUnescapeAux f ((l.map jsonEscapeChar).flatten) = some l := by
  induction l with
  | nil => intro f _; simp [jsonUnescapeAux_nil]
  | cons c t ih =>
    intro f hf
    obtain ⟨e1, es, he⟩ := List.exists_cons_of_ne_nil (jsonEscapeChar_ne_nil c)
    have hflat : ((c :: t).map jsonEscapeChar).flatten
        = jsonEscapeChar c ++ (t.map jsonEscapeChar).flatten := by simp
    rw [hflat] at hf ⊢
    cases f with
    | zero =>
      exfalso
      rw [he] at hf
      simp at hf
    | succ f =>
      have hstep : unescapeStep (jsonEscapeChar c ++ (t.map jsonEscapeChar).flatten)
          = some (c, (t.map jsonEscapeChar).flatten) := unescapeStep_jsonEscapeChar c _
      rw [he, List.cons_append] at hstep ⊢
      have hlen : ((t.map jsonEscapeChar).flatten).length ≤ f := by
        rw [he] at hf
        simp only [List.cons_append, List.length_cons, List.length_append] at hf
        omega
      simp only [jsonUnescapeAux, hstep, ih f hlen]
      rfl

theorem jsonUnquote_jsonQuote (s : String) : jsonUnquote (jsonQuote s) = some s := by
  have hdata : (jsonQuote s).data
      = '"' :: ((s.data.map jsonEscapeChar).flatten ++ ['"']) := rfl
  have hchop1 : chopLead ['"'] ((jsonQuote s).data)
      = some ((s.data.map jsonEscapeChar).flatten ++ ['"']) := by
    rw [hdata]; simp [chopLead]
  have hrev : ((s.data.map jsonEscapeChar).flatten ++ ['"']).reverse
      = '"' :: ((s.data.map jsonEscapeChar).flatten).reverse := by
    simp
  have hchop2 : chopLead ['"'] ('"' :: ((s.data.map jsonEscapeChar).flatten).reverse)
      = some (((s.data.map jsonEscapeChar).flatten).reverse) := by
    simp [chopLead]
  simp only [jsonUnquote, hchop1, hrev, hchop2, List.length_reverse, List.reverse_reverse,
    jsonUnescapeAux_escape s.data ((s.data.map jsonEscapeChar).flatten).length (le_refl _)]
  rfl

theorem boolVariableDecode_encode (b : Bool) :
    boolVariableDecode (boolVariableEncode b) = some b := by
  cases b <;> decide

/-- C2 counterexample: when the client's Delete reports not-found through an
error (its response is a 404), the delete operation returns a failure, so a
not-found response is not treated as success. -/
theorem c2_counterexample :
    responseWasNotFound delNF.resp = true
    ∧ datetimeVariableDelete delNF d0
        = (OpOutcome.fail (OpError.deleteFailed "ResourceNotFound") d0,
           [RemoteCall.deleteCall]) := by
  decide

/-- C2 (amended): delete surfaces every error of the client's Delete
unchanged, with no special case for not-found responses, and succeeds
exactly when the client's Delete returns no error. -/
theorem c2_delete_propagates (del : DeleteResult) (d : ResourceData)
    (pid : ParsedResourceId) (hpid : parseAzureResourceID d.id = some pid) :
    (del.err = none →
      datetimeVariableDelete del d = (OpOutcome.ok d, [RemoteCall.deleteCall]))
    ∧ (∀ e, del.err = some e →
      datetimeVariableDelete del d
        = (OpOutcome.fail (OpError.deleteFailed e) d, [RemoteCall.deleteCall])) := by
  constructor
  · intro h
    simp [datetimeVariableDelete, hpid, h]
  · intro e h
    simp [datetimeVariableDelete, hpid, h]

/-- C2 witness: a delete whose client call succeeds reports success. -/
theorem c2_delete_propagates_witness :
    datetimeVariableDelete delOkRes d0 = (OpOutcome.ok d0, [RemoteCall.deleteCall]) :=
  (c2_delete_propagates delOkRes d0 pid0 (by decide)).1 rfl

/-- C3: with the import guard enabled, when the probe Get succeeds, does not
report not-found and carries a canonical id, createOrUpdate fails with the
import-as-exists error referencing that id and never calls the external
CreateOrUpdate. -/
theorem c3_import_guard_conflict (cl : ClientBehavior) (d : ResourceData) (i : String)
    (herr : cl.probeGet.err = none)
    (hfound : responseWasNotFound cl.probeGet.resp.response = false)
    (hid : cl.probeGet.resp.id = some i) :
    datetimeVariableCreateUpdate true cl d
      = (OpOutcome.fail (OpError.importAsExists "azurerm_automation_datetime_variable" i) d,
         [RemoteCall.getCall])
    ∧ ∀ c ∈ (datetimeVariableCreateUpdate true cl d).2, isCreateCall c = false := by
  have h : datetimeVariableCreateUpdate true cl d
      = (OpOutcome.fail (OpError.importAsExists "azurerm_automation_datetime_variable" i) d,
         [RemoteCall.getCall]) := by
    simp [datetimeVariableCreateUpdate, herr, hfound, hid]
  refine ⟨h, ?_⟩
  rw [h]
  intro c hc
  rw [List.mem_singleton] at hc
  subst hc
  rfl

/-- C3 witness: the guard refuses to overwrite the existing fixture object. -/
theorem c3_import_guard_conflict_witness :
    datetimeVariableCreateUpdate true clientOk0 d0
      = (OpOutcome.fail (OpError.importAsExists "azurerm_automation_datetime_variable" idStr0) d0,
         [RemoteCall.getCall]) :=
  (c3_import_guard_conflict clientOk0 d0 idStr0 rfl (by decide) rfl).1

/-- C5: a read whose Get reports not-found clears the tracked identifier and
succeeds, while any other Get failure is returned as a read error. -/
theorem c5_read_removed (g : GetResult) (d : ResourceData) (pid : ParsedResourceId)
    (hpid : parseAzureResourceID d.id = some pid) :
    (∀ e, g.err = some e → responseWasNotFound g.resp.response = true →
      datetimeVariableRead g d = (OpOutcome.ok { d with id := "" }, [RemoteCall.getCall]))
    ∧ (∀ e, g.err = some e → responseWasNotFound g.resp.response = false →
      datetimeVariableRead g d
        = (OpOutcome.fail (OpError.readFailed e) d, [RemoteCall.getCall])) := by
  constructor
  · intro e he hnf
    simp [datetimeVariableRead, hpid, he, hnf]
  · intro e he hnf
    simp [datetimeVariableRead, hpid, he, hnf]

/-- C5 witness: a 404 read of the fixture clears the id and succeeds. -/
theorem c5_read_removed_witness :
    datetimeVariableRead g404 d0 = (OpOutcome.ok { d0 with id := "" }, [RemoteCall.getCall]) :=
  (c5_read_removed g404 d0 pid0 (by decide)).1 "ResourceNotFound" rfl (by decide)

/-- C7 counterexample: an invocation whose value is unparseable but whose
probe finds an existing object fails with the import-as-exists error, not
with the invalid-time-format error. -/
theorem c7_counterexample :
    goParseRFC3339 dBad.value = none
    ∧ outcomeError (datetimeVariableCreateUpdate true clientOk0 dBad).1
        = some (OpError.importAsExists "azurerm_automation_datetime_variable" idStr0)
    ∧ outcomeError (datetimeVariableCreateUpdate true clientOk0 dBad).1
        ≠ some OpError.invalidTimeFormat := by
  decide

/-- C7 (amended): when the value is not a parseable RFC-3339 timestamp and
the operation reaches the encode step (the guard is disabled or the probe
reported not-found), createOrUpdate fails with the invalid-time-format error
and the external CreateOrUpdate is never called. -/
theorem c7_invalid_time_atomicity (req : Bool) (cl : ClientBehavior) (d : ResourceData)
    (hbad : goParseRFC3339 d.value = none)
    (hguard : req = false ∨ responseWasNotFound cl.probeGet.resp.response = true) :
    (datetimeVariableCreateUpdate req cl d).1 = OpOutcome.fail OpError.invalidTimeFormat d
    ∧ ∀ c ∈ (datetimeVariableCreateUpdate req cl d).2, isCreateCall c = false := by
  have hres : datetimeVariableCreateUpdate req cl d
      = (OpOutcome.fail OpError.invalidTimeFormat d,
         if req then [RemoteCall.getCall] else []) := by
    rcases hguard with h | h
    · subst h
      simp [datetimeVariableCreateUpdate, hbad]
    · cases req <;> simp [datetimeVariableCreateUpdate, hbad, h]
  refine ⟨by rw [hres], ?_⟩
  rw [hres]
  intro c hc
  cases req with
  | false => simp at hc
  | true =>
    simp at hc
    subst hc
    rfl

/-- C7 witness: with the guard disabled, the unparseable fixture value fails
with the invalid-time-format error before any CreateOrUpdate call. -/
theorem c7_invalid_time_atomicity_witness :
    (datetimeVariableCreateUpdate false clientOk0 dBad).1
        = OpOutcome.fail OpError.invalidTimeFormat dBad
    ∧ ∀ c ∈ (datetimeVariableCreateUpdate false clientOk0 dBad).2, isCreateCall c = false :=
  c7_invalid_time_atomicity false clientOk0 dBad (by decide) (Or.inl rfl)

/-- C8: reading a record whose encrypted flag is true refreshes name,
resource group, account name, description and the encrypted flag, succeeds
whatever the stored value is, and leaves the value field unchanged because
no decode is attempted. -/
theorem c8_encrypted_opacity (g : GetResult) (d : ResourceData) (pid : ParsedResourceId)
    (props : VariableProperties)
    (hpid : parseAzureResourceID d.id = some pid)
    (herr : g.err = none)
    (hprops : g.resp.properties = some props)
    (henc : props.isEncrypted = some true) :
    datetimeVariableRead g d
      = (OpOutcome.ok { d with name := g.resp.name.getD "",
                               resourceGroupName := pid.resourceGroup,
                               automationAccountName := pid.accountName,
                               description := props.description.getD "",
                               encrypted := true }, [RemoteCall.getCall]) := by
  simp [datetimeVariableRead, hpid, herr, hprops, henc]

/-- C8 witness: reading an encrypted record with an undecodable stored value
still succeeds and keeps the fixture's value field untouched. -/
theorem c8_encrypted_opacity_witness :
    datetimeVariableRead gEnc d0
      = (OpOutcome.ok { d0 with description := "secret description", encrypted := true },
         [RemoteCall.getCall]) := by
  have h := c8_encrypted_opacity gEnc d0 pid0
    (VariableProperties.mk (some "secret description") (some true) (some "garbage"))
    (by decide) rfl rfl rfl
  rw [h]
  decide

/-- C10: with the guard enabled and a successful probe that does not report
not-found, the import-as-exists error dereferences the record's id pointer
without a nil check: a nil id crashes with a nil-pointer panic instead of an
error, and a present id yields the import-as-exists failure. -/
theorem c10_nil_id_crash (cl : ClientBehavior) (d : ResourceData)
    (herr : cl.probeGet.err = none)
    (hfound : responseWasNotFound cl.probeGet.resp.response = false) :
    (cl.probeGet.resp.id = none →
      (datetimeVariableCreateUpdate true cl d).1 = OpOutcome.crash)
    ∧ (∀ i, cl.probeGet.resp.id = some i →
      (datetimeVariableCreateUpdate true cl d).1
        = OpOutcome.fail (OpError.importAsExists "azurerm_automation_datetime_variable" i) d) := by
  constructor
  · intro h
    simp [datetimeVariableCreateUpdate, herr, hfound, h]
  · intro i h
    simp [datetimeVariableCreateUpdate, herr, hfound, h]

/-- C10 witness: probing a found record without an id crashes. -/
theorem c10_nil_id_crash_witness :
    (datetimeVariableCreateUpdate true clientNoId d0).1 = OpOutcome.crash :=
  (c10_nil_id_crash clientNoId d0 rfl (by decide)).1 rfl

/-- C1 counterexample: decoding the scenario token yields epoch millisecond
1672671845000, but rendering it with the .999 layout of line 149 produces
2023-01-02T15:04:05Z, not the fixed-millisecond-precision
2023-01-02T15:04:05.000Z the claim states. -/
theorem c1_counterexample :
    parseAzureRmAutomationVariableValue (some encTok0) = some 1672671845000
    ∧ goFormatMilli999Z 1672671845000 = "2023-01-02T15:04:05Z"
    ∧ goFormatMilli999Z 1672671845000 ≠ "2023-01-02T15:04:05.000Z" := by
  decide

/-- C1 (amended): creating a datetime variable with value
2023-01-02T15:04:05Z sends the encoded token carrying epoch millisecond
1672671845000, and the subsequent read decodes that token and renders
2023-01-02T15:04:05Z, the .999 layout dropping the zero millisecond fraction
together with the decimal point. -/
theorem c1_datetime_scenario :
    (datetimeVariableCreateUpdate false clientOk0 d0).2
      = [RemoteCall.createCall encTok0, RemoteCall.getCall, RemoteCall.getCall]
    ∧ (datetimeVariableCreateUpdate false clientOk0 d0).1 = OpOutcome.ok d0
    ∧ encTok0 = "\"\\/Date(1672671845000)\\/\""
    ∧ d0.value = "2023-01-02T15:04:05Z"
    ∧ parseAzureRmAutomationVariableValue (some encTok0) = some 1672671845000
    ∧ goFormatMilli999Z 1672671845000 = "2023-01-02T15:04:05Z" := by
  decide

/-- C4 counterexample: 2500-01-01T00:00:00Z is a valid RFC-3339 timestamp,
but its epoch nanoseconds overflow int64, so the UnixNano-based encoding
wraps and decoding the encoded token does not recover the instant truncated
to milliseconds. -/
theorem c4_counterexample :
    goParseRFC3339 "2500-01-01T00:00:00Z" = some p2500
    ∧ parseAzureRmAutomationVariableValue (some (datetimeEncodeValue p2500))
        ≠ some (Int.tdiv (epochNanoOfParts p2500) 1000000) := by
  decide

/-- C4 (amended): the codecs satisfy the round-trip law on their valid
domains: exactly for Int values within int64, for Bool and for String, and
for DateTime the decoded result denotes the instant of the input truncated
to millisecond granularity whenever the input's epoch nanoseconds fit in
int64 (outside that range UnixNano wraps). -/
theorem c4_roundtrip :
    (∀ i : Int, -(9223372036854775808 : Int) ≤ i → i < 9223372036854775808 →
      intVariableDecode (intVariableEncode i) = some i)
    ∧ (∀ b : Bool, boolVariableDecode (boolVariableEncode b) = some b)
    ∧ (∀ s : String, jsonUnquote (jsonQuote s) = some s)
    ∧ (∀ (s : String) (p : Rfc3339Parts), goParseRFC3339 s = some p →
        -(9223372036854775808 : Int) ≤ epochNanoOfParts p →
        epochNanoOfParts p < 9223372036854775808 →
        parseAzureRmAutomationVariableValue (some (datetimeEncodeValue p))
          = some (Int.tdiv (epochNanoOfParts p) 1000000)) := by
  have h63 : (2 : Int) ^ 63 = 9223372036854775808 := by norm_num
  have h20 : (10 : Int) ^ 20 = 100000000000000000000 := by norm_num
  refine ⟨?_, boolVariableDecode_encode, jsonUnquote_jsonQuote, ?_⟩
  · intro i h1 h2
    have hb1 : -(10 ^ 20 : Int) < i := by omega
    have hb2 : i < 10 ^ 20 := by omega
    have h := parseIntChars_intToDecimalChars i hb1 hb2
    simpa [intVariableDecode, intVariableEncode] using h
  · intro s p hparse hlo hhi
    have hwrap : unixNanoInt64 p = epochNanoOfParts p := by
      unfold unixNanoInt64
      exact wrap64_eq_of_bounds _ (by omega) (by omega)
    have habs : (Int.tdiv (epochNanoOfParts p) 1000000).natAbs
        = (epochNanoOfParts p).natAbs / 1000000 := Int.natAbs_tdiv _ _
    have hd : (epochNanoOfParts p).natAbs / 1000000 ≤ (epochNanoOfParts p).natAbs :=
      Nat.div_le_self _ _
    have hms1 : -(10 ^ 20 : Int) < Int.tdiv (epochNanoOfParts p) 1000000 := by omega
    have hms2 : Int.tdiv (epochNanoOfParts p) 1000000 < 10 ^ 20 := by omega
    unfold datetimeEncodeValue
    rw [hwrap]
    exact parseValue_goSprintfDateToken _ hms1 hms2

/-- C4 witness: concrete round trips for each codec, the DateTime case at
the scenario timestamp. -/
theorem c4_roundtrip_witness :
    intVariableDecode (intVariableEncode 1234) = some 1234
    ∧ boolVariableDecode (boolVariableEncode true) = some true
    ∧ jsonUnquote (jsonQuote "a\"b\\c\nd") = some "a\"b\\c\nd"
    ∧ parseAzureRmAutomationVariableValue (some (datetimeEncodeValue p2023))
        = some (Int.tdiv (epochNanoOfParts p2023) 1000000) :=
  ⟨c4_roundtrip.1 1234 (by decide) (by decide), c4_roundtrip.2.1 true,
    c4_roundtrip.2.2.1 "a\"b\\c\nd",
    c4_roundtrip.2.2.2 "2023-01-02T15:04:05Z" p2023 (by decide) (by decide) (by decide)⟩

theorem datetimeVariableRead_id_of_err_none (g : GetResult) (d : ResourceData)
    (h : g.err = none) :
    (outcomeState (datetimeVariableRead g d).1).map (fun r => r.id) = some d.id := by
  cases hp : parseAzureResourceID d.id with
  | none => simp [datetimeVariableRead, hp, outcomeState]
  | some pid =>
    cases hprops : g.resp.properties with
    | none => simp [datetimeVariableRead, hp, h, hprops, outcomeState]
    | some props =>
      by_cases henc : props.isEncrypted.getD false = true
      · simp [datetimeVariableRead, hp, h, hprops, henc, outcomeState]
      · cases hval : parseAzureRmAutomationVariableValue props.value with
        | none => simp [datetimeVariableRead, hp, h, hprops, henc, hval, outcomeState]
        | some ms => simp [datetimeVariableRead, hp, h, hprops, henc, hval, outcomeState]

/-- C6: once CreateOrUpdate succeeds, the re-Get decides the outcome: a
record without an id fails with the cannot-read-id error, and otherwise the
locally persisted identifier is exactly the canonical id of the re-Get
(carried through the trailing read when its Get returns no error). -/
theorem c6_canonical_id_persisted (req : Bool) (cl : ClientBehavior) (d : ResourceData)
    (p : Rfc3339Parts)
    (hguard : req = false ∨ responseWasNotFound cl.probeGet.resp.response = true)
    (hparse : goParseRFC3339 d.value = some p)
    (hcreate : cl.createErr = none)
    (hget : cl.afterGet.err = none) :
    (cl.afterGet.resp.id = none →
      (datetimeVariableCreateUpdate req cl d).1 = OpOutcome.fail OpError.cannotReadId d)
    ∧ (∀ i, cl.afterGet.resp.id = some i → cl.readGet.err = none →
      (outcomeState (datetimeVariableCreateUpdate req cl d).1).map (fun r => r.id) = some i) := by
  constructor
  · intro hid
    rcases hguard with h | h
    · subst h
      simp [datetimeVariableCreateUpdate, hparse, hcreate, hget, hid]
    · cases req <;> simp [datetimeVariableCreateUpdate, hparse, hcreate, hget, hid, h]
  · intro i hid hread
    have hrid := datetimeVariableRead_id_of_err_none cl.readGet { d with id := i } hread
    rcases hguard with h | h
    · subst h
      simp only [datetimeVariableCreateUpdate, hparse, hcreate, hget, hid]
      simpa using hrid
    · cases req with
      | false =>
        simp only [datetimeVariableCreateUpdate, hparse, hcreate, hget, hid]
        simpa using hrid
      | true =>
        simp only [datetimeVariableCreateUpdate, hparse, hcreate, hget, hid, h]
        simpa using hrid

/-- C6 witness: the successful fixture run persists the canonical id of the
re-Get. -/
theorem c6_canonical_id_persisted_witness :
    (outcomeState (datetimeVariableCreateUpdate false clientOk0 d0).1).map (fun r => r.id)
      = some idStr0 :=
  (c6_canonical_id_persisted false clientOk0 d0 p2023 (Or.inl rfl) (by decide) rfl rfl).2
    idStr0 rfl rfl

/-- C9: the destroy check invokes Get on at most the first tracked
int-variable resource (the filtered list truncated to one element), and when
that first resource's Get returns no error the whole check reports success,
whatever the remaining tracked resources hold. -/
theorem c9_destroy_check_first_only (oracle : StateResource → GetResult)
    (l : List StateResource) :
    (intVariableDestroyCheck oracle l).2 = (l.filter isIntVariableRes).take 1
    ∧ (∀ r t, l.filter isIntVariableRes = r :: t → (oracle r).err = none →
        (intVariableDestroyCheck oracle l).1 = none) := by
  induction l with
  | nil =>
    refine ⟨rfl, ?_⟩
    intro r t hf
    simp at hf
  | cons rs rest ih =>
    by_cases h : isIntVariableRes rs
    · constructor
      · cases hoe : (oracle rs).err with
        | none => simp [intVariableDestroyCheck, h, hoe, List.filter_cons_of_pos, List.take]
        | some e =>
          by_cases hnf : responseWasNotFound (oracle rs).resp.response = true <;>
            simp [intVariableDestroyCheck, h, hoe, hnf, List.filter_cons_of_pos, List.take]
      · intro r t hf hor
        rw [List.filter_cons_of_pos h] at hf
        have hr : r = rs := (List.cons.injEq _ _ _ _ ▸ hf).1.symm
        subst hr
        simp [intVariableDestroyCheck, h, hor]
    · obtain ⟨ih1, ih2⟩ := ih
      have hfneg : (rs :: rest).filter isIntVariableRes = rest.filter isIntVariableRes :=
        List.filter_cons_of_neg (by simpa using h)
      constructor
      · rw [hfneg]
        simpa [intVariableDestroyCheck, h] using ih1
      · intro r t hf hor
        rw [hfneg] at hf
        have := ih2 r t hf hor
        simpa [intVariableDestroyCheck, h] using this

/-- C9 witness: with two tracked int variables that both still exist, the
check reports success and Get was invoked only on the first. -/
theorem c9_destroy_check_first_only_witness :
    (intVariableDestroyCheck oracleExists [resA, resB]).1 = none
    ∧ (intVariableDestroyCheck oracleExists [resA, resB]).2 = [resA] := by
  have h := c9_destroy_check_first_only oracleExists [resA, resB]
  refine ⟨h.2 resA [resB] (by decide) rfl, ?_⟩
  rw [h.1]
  decide

end AutomationVariable
